import Mathlib

/-!
Verification of the computer_vision_pipeline repository core:
the quality-assessment / filter-selection policy of `src/preprocess.cpp`
and the Gaussian kernel / convolution engine of the
`filter_convolution_algorithms` translation unit (`GaussianBlurFilter`).

Modelling conventions.
* Machine doubles are modelled by exact rationals `ℚ`; the transcendental
  factors of the Gaussian (`exp (-t / (2 σ²))` and the constant
  `1 / (2 π σ²)`) are abstracted as a weight function `g : ℤ → ℚ` and a
  constant `A : ℚ`.  The only facts about them the source algorithms rely
  on — positivity, and the exponential law
  `exp (a + b) = exp a * exp b` — are carried as explicit hypotheses and
  discharged on concrete instances in the witnesses.
* `cv::Mat` pixel data is modelled as a total function `ℕ → ℕ → ℚ`
  together with the `rows`/`cols` dimensions; the 8-bit output of
  `convertTo(·, CV_8U)` uses round-half-to-even followed by saturation to
  `[0, 255]`, as OpenCV's `saturate_cast<uchar>` does.
* Throwing `std::invalid_argument` is modelled by `Except.error`.
-/

/-- The `FilterType` enum of `src/preprocess.cpp`. -/
inductive FilterType
  | GAUSSIAN_BLUR
  | UNSHARP_MASK
  | LAPLACIAN_SHARPEN
  | BILATERAL_DENOISE
  | CLAHE_ENHANCE
  | EDGE_ENHANCE
deriving DecidableEq

/-- The decision stage of `ImagePreprocessor::assessImageQuality`
(`src/preprocess.cpp` lines 240–253), as a function of the three computed
quality metrics `variance` (blur variance), `noiseLevel` and
`brightness`. -/
def assessDecision (variance noiseLevel brightness : ℚ) : FilterType :=
  if variance < 100 then FilterType.UNSHARP_MASK
  else if noiseLevel > 15 then FilterType.BILATERAL_DENOISE
  else if brightness < 50 ∨ brightness > 200 then FilterType.CLAHE_ENHANCE
  else FilterType.EDGE_ENHANCE

/-- The manual filter-selection chain of `main`
(`src/preprocess.cpp` lines 310–316): an unrecognized string falls
through the final `else` to `GAUSSIAN_BLUR`. -/
def parseFilterString (s : String) : FilterType :=
  if s = "blur" then FilterType.GAUSSIAN_BLUR
  else if s = "sharpen" then FilterType.UNSHARP_MASK
  else if s = "laplacian" then FilterType.LAPLACIAN_SHARPEN
  else if s = "denoise" then FilterType.BILATERAL_DENOISE
  else if s = "clahe" then FilterType.CLAHE_ENHANCE
  else if s = "edge" then FilterType.EDGE_ENHANCE
  else FilterType.GAUSSIAN_BLUR

/-- The filter-selection logic of `main` (`src/preprocess.cpp`
lines 287–317): `argv3`/`argv4` are the optional third and fourth
command-line arguments, and `assessed` is the result
`assessImageQuality` would return on the loaded image.  `filterStr`
defaults to `"auto"` when absent; the auto-assess path is taken when
`filterStr == "auto"` or the fourth argument is `"auto"`. -/
def selectFilter (argv3 argv4 : Option String) (assessed : FilterType) : FilterType :=
  let filterStr := argv3.getD "auto"
  if filterStr = "auto" ∨ argv4 = some "auto" then assessed
  else parseFilterString filterStr

/-- Claim C1: `assessImageQuality` evaluates its decision policy in this
exact order with first match winning: blur variance below 100 selects
Unsharp-Mask; otherwise noise level above 15 selects Bilateral-Denoise;
otherwise brightness below 50 or above 200 selects CLAHE-Enhance;
otherwise Edge-Enhance — with the thresholds 100, 15, 50, 200 fixed and
no combination logic. -/
theorem assessDecision_policy_order (variance noiseLevel brightness : ℚ) :
    (variance < 100 → assessDecision variance noiseLevel brightness = FilterType.UNSHARP_MASK) ∧
    (100 ≤ variance → 15 < noiseLevel →
      assessDecision variance noiseLevel brightness = FilterType.BILATERAL_DENOISE) ∧
    (100 ≤ variance → noiseLevel ≤ 15 → (brightness < 50 ∨ 200 < brightness) →
      assessDecision variance noiseLevel brightness = FilterType.CLAHE_ENHANCE) ∧
    (100 ≤ variance → noiseLevel ≤ 15 → 50 ≤ brightness → brightness ≤ 200 →
      assessDecision variance noiseLevel brightness = FilterType.EDGE_ENHANCE) := by
  refine ⟨fun h1 => ?_, fun h1 h2 => ?_, fun h1 h2 h3 => ?_, fun h1 h2 h3 h4 => ?_⟩ <;>
    simp only [assessDecision]
  · rw [if_pos h1]
  · rw [if_neg (not_lt.mpr h1), if_pos (by simpa using h2)]
  · rw [if_neg (not_lt.mpr h1), if_neg (by simpa using h2), if_pos h3]
  · rw [if_neg (not_lt.mpr h1), if_neg (by simpa using h2),
      if_neg (by push_neg; exact ⟨h3, h4⟩)]

/-- Witness for C1: the policy evaluated at concrete metric triples. -/
theorem assessDecision_policy_order_witness :
    ((50 : ℚ) < 100 ∧ assessDecision 50 0 128 = FilterType.UNSHARP_MASK) ∧
    ((100 : ℚ) ≤ 150 ∧ (15 : ℚ) < 20 ∧ assessDecision 150 20 128 = FilterType.BILATERAL_DENOISE) ∧
    assessDecision 150 10 10 = FilterType.CLAHE_ENHANCE ∧
    assessDecision 150 10 128 = FilterType.EDGE_ENHANCE :=
  ⟨⟨by norm_num, (assessDecision_policy_order 50 0 128).1 (by norm_num)⟩,
   ⟨by norm_num, by norm_num,
     (assessDecision_policy_order 150 20 128).2.1 (by norm_num) (by norm_num)⟩,
   (assessDecision_policy_order 150 10 10).2.2.1 (by norm_num) (by norm_num)
     (Or.inl (by norm_num)),
   (assessDecision_policy_order 150 10 128).2.2.2 (by norm_num) (by norm_num)
     (by norm_num) (by norm_num)⟩

/-- Claim C9: the assessment decision always returns one of the four
filters Unsharp-Mask, Bilateral-Denoise, CLAHE-Enhance, Edge-Enhance,
and never Gaussian-Blur or Laplacian-Sharpen. -/
theorem assessDecision_range_four (variance noiseLevel brightness : ℚ) :
    (assessDecision variance noiseLevel brightness = FilterType.UNSHARP_MASK ∨
     assessDecision variance noiseLevel brightness = FilterType.BILATERAL_DENOISE ∨
     assessDecision variance noiseLevel brightness = FilterType.CLAHE_ENHANCE ∨
     assessDecision variance noiseLevel brightness = FilterType.EDGE_ENHANCE) ∧
    assessDecision variance noiseLevel brightness ≠ FilterType.GAUSSIAN_BLUR ∧
    assessDecision variance noiseLevel brightness ≠ FilterType.LAPLACIAN_SHARPEN := by
  unfold assessDecision
  split_ifs <;> simp

/-- Counterexample for C6: the explicitly requested filter string
`"foo"` is outside the six recognized values, yet `main` silently
selects Gaussian-Blur for it (no error path exists in the selection
code), contradicting the claim that an Unsupported-Filter error is
raised. -/
theorem selectFilter_unknown_silently_blur_cex :
    selectFilter (some "foo") none FilterType.EDGE_ENHANCE = FilterType.GAUSSIAN_BLUR ∧
    "foo" ≠ "blur" ∧ "foo" ≠ "sharpen" ∧ "foo" ≠ "laplacian" ∧
    "foo" ≠ "denoise" ∧ "foo" ≠ "clahe" ∧ "foo" ≠ "edge" ∧ "foo" ≠ "auto" := by
  refine ⟨?_, by decide, by decide, by decide, by decide, by decide, by decide, by decide⟩
  rfl

/-- Claim C6 (amended): the selection logic never raises any error; an
explicitly requested filter string outside the six recognized values
(and distinct from `"auto"`, with no `"auto"` fourth argument) is
silently mapped to Gaussian-Blur, the same value as the no-filter
default. -/
theorem selectFilter_unknown_defaults_gaussian (s : String) (argv4 : Option String)
    (assessed : FilterType)
    (hs : s ≠ "auto") (h4 : argv4 ≠ some "auto")
    (h1 : s ≠ "blur") (h2 : s ≠ "sharpen") (h3 : s ≠ "laplacian")
    (h5 : s ≠ "denoise") (h6 : s ≠ "clahe") (h7 : s ≠ "edge") :
    selectFilter (some s) argv4 assessed = FilterType.GAUSSIAN_BLUR := by
  unfold selectFilter parseFilterString
  simp only [Option.getD_some]
  rw [if_neg (by simp [hs, h4]), if_neg h1, if_neg h2, if_neg h3, if_neg h5,
    if_neg h6, if_neg h7]

/-- Witness for the amended C6 at the concrete string `"foo"`. -/
theorem selectFilter_unknown_defaults_gaussian_witness :
    selectFilter (some "foo") none FilterType.CLAHE_ENHANCE = FilterType.GAUSSIAN_BLUR :=
  selectFilter_unknown_defaults_gaussian "foo" none FilterType.CLAHE_ENHANCE
    (by decide) (by simp) (by decide) (by decide) (by decide) (by decide)
    (by decide) (by decide)

/-- Offset of a row/column index `k` from the kernel center
(`int center = size / 2` in the source; both C++ and Lean divisions
agree on non-negative operands). -/
def cellOffset (size k : ℕ) : ℤ := (k : ℤ) - ((size / 2 : ℕ) : ℤ)

/-- One unnormalized cell of the 2-D Gaussian kernel
(`GaussianBlurFilter::generateGaussianKernel`, inner loop):
the source computes `value = (1/(2πσ²)) · exp (-(x²+y²)/(2σ²))`.
`A` abstracts the positive constant `1/(2πσ²)` and `g t` abstracts
`exp (-t/(2σ²))`, both transcendental in the reals. -/
def gaussCell (A : ℚ) (g : ℤ → ℚ) (size i j : ℕ) : ℚ :=
  A * g (cellOffset size i ^ 2 + cellOffset size j ^ 2)

/-- The accumulated `sum` of all unnormalized kernel values in
`generateGaussianKernel`. -/
def kernelTotal (A : ℚ) (g : ℤ → ℚ) (size : ℕ) : ℚ :=
  ∑ i ∈ Finset.range size, ∑ j ∈ Finset.range size, gaussCell A g size i j

/-- `GaussianBlurFilter::generateGaussianKernel` (part_002 lines 26–51):
each cell divided by the total, so the kernel sums to 1. -/
def generateGaussianKernel (A : ℚ) (g : ℤ → ℚ) (size : ℕ) (i j : ℕ) : ℚ :=
  gaussCell A g size i j / kernelTotal A g size

/-- The accumulated `sum` of the 1-D kernel values built inside
`applySeparableConvolution` (part_002 lines 134–148): the 1-D value is
`exp (-(x²)/(2σ²))`, i.e. `g (x²)`, with no constant factor. -/
def kernel1Dtotal (g : ℤ → ℚ) (size : ℕ) : ℚ :=
  ∑ k ∈ Finset.range size, g (cellOffset size k ^ 2)

/-- The normalized 1-D Gaussian kernel of `applySeparableConvolution`. -/
def kernel1D (g : ℤ → ℚ) (size : ℕ) (k : ℕ) : ℚ :=
  g (cellOffset size k ^ 2) / kernel1Dtotal g size

/-- The validation stage of the `GaussianBlurFilter` constructor
(part_002 lines 59–65): it throws `std::invalid_argument` exactly when
`size % 2 == 0`; `sigma` is never examined.  `size` is a C++ `int`,
modelled as `ℤ` (C++ truncated `%` and Lean `emod` classify evenness
identically). -/
def gaussianBlurFilterCtor (size : ℤ) (sigma : ℚ) : Except String Unit :=
  if size % 2 = 0 then Except.error "Kernel size must be odd" else Except.ok ()

/-- The `Finset.range size` is nonempty for odd `size`. -/
theorem range_nonempty_of_odd {size : ℕ} (hodd : size % 2 = 1) :
    (Finset.range size).Nonempty :=
  Finset.nonempty_range_iff.mpr (by omega)

/-- The unnormalized kernel total is positive for positive `A`,
positive `g` and odd `size`. -/
theorem kernelTotal_pos (A : ℚ) (g : ℤ → ℚ) (size : ℕ)
    (hA : 0 < A) (hg : ∀ t, 0 < g t) (hodd : size % 2 = 1) :
    0 < kernelTotal A g size :=
  Finset.sum_pos
    (fun _ _ => Finset.sum_pos (fun _ _ => mul_pos hA (hg _)) (range_nonempty_of_odd hodd))
    (range_nonempty_of_odd hodd)

/-- The 1-D kernel total is positive for positive `g` and odd `size`. -/
theorem kernel1Dtotal_pos (g : ℤ → ℚ) (size : ℕ)
    (hg : ∀ t, 0 < g t) (hodd : size % 2 = 1) :
    0 < kernel1Dtotal g size :=
  Finset.sum_pos (fun _ _ => hg _) (range_nonempty_of_odd hodd)

/-- Reflecting an index through the kernel grid negates its center
offset (for odd `size`). -/
theorem cellOffset_reflect {size : ℕ} (hodd : size % 2 = 1) (k : ℕ) (hk : k < size) :
    cellOffset size (size - 1 - k) = -(cellOffset size k) := by
  unfold cellOffset
  omega

/-- Claim C3: for every positive odd size (and positive abstracted
Gaussian weights, which `sigma > 0` guarantees in the source),
`generateGaussianKernel` returns a size-by-size matrix of non-negative
entries that sum exactly to 1 and are symmetric under 180-degree
rotation about the center cell. -/
theorem generateGaussianKernel_normalized_symmetric (A : ℚ) (g : ℤ → ℚ) (size : ℕ)
    (hA : 0 < A) (hg : ∀ t, 0 < g t) (hodd : size % 2 = 1) :
    (∀ i j, i < size → j < size → 0 ≤ generateGaussianKernel A g size i j) ∧
    (∑ i ∈ Finset.range size, ∑ j ∈ Finset.range size,
        generateGaussianKernel A g size i j) = 1 ∧
    (∀ i j, i < size → j < size →
        generateGaussianKernel A g size i j =
        generateGaussianKernel A g size (size - 1 - i) (size - 1 - j)) := by
  have htot := kernelTotal_pos A g size hA hg hodd
  refine ⟨fun i j _ _ => ?_, ?_, fun i j hi hj => ?_⟩
  · exact div_nonneg (mul_pos hA (hg _)).le htot.le
  · simp only [generateGaussianKernel, ← Finset.sum_div]
    have h1 : (∑ i ∈ Finset.range size, ∑ j ∈ Finset.range size,
        gaussCell A g size i j) = kernelTotal A g size := rfl
    rw [h1, div_self htot.ne']
  · unfold generateGaussianKernel gaussCell
    rw [cellOffset_reflect hodd i hi, cellOffset_reflect hodd j hj, neg_sq, neg_sq]

/-- Witness for C3 at `A = 1`, `g = const 1`, `size = 3`. -/
theorem generateGaussianKernel_normalized_symmetric_witness :
    (0 : ℚ) < 1 ∧ 3 % 2 = 1 ∧
    ((∀ i j, i < 3 → j < 3 → 0 ≤ generateGaussianKernel 1 (fun _ => 1) 3 i j) ∧
     (∑ i ∈ Finset.range 3, ∑ j ∈ Finset.range 3,
         generateGaussianKernel 1 (fun _ => 1) 3 i j) = 1 ∧
     (∀ i j, i < 3 → j < 3 →
         generateGaussianKernel 1 (fun _ => 1) 3 i j =
         generateGaussianKernel 1 (fun _ => 1) 3 (3 - 1 - i) (3 - 1 - j))) :=
  ⟨one_pos, rfl,
   generateGaussianKernel_normalized_symmetric 1 (fun _ => 1) 3 one_pos
     (fun _ => one_pos) rfl⟩

/-- Counterexample for C5: construction with valid odd size 5 but
`sigma = 0 ≤ 0` succeeds (no invalid-argument condition is raised —
the constructor never examines sigma), and construction with the
non-positive odd size `-3` also passes the parity check (the only
check the constructor performs). -/
theorem gaussianBlurFilterCtor_cex :
    gaussianBlurFilterCtor 5 0 = Except.ok () ∧ (0 : ℚ) ≤ 0 ∧
    gaussianBlurFilterCtor (-3) 1 = Except.ok () ∧ (-3 : ℤ) ≤ 0 := by
  refine ⟨?_, le_refl 0, ?_, by norm_num⟩ <;> rfl

/-- Claim C5 (amended): the constructor raises the invalid-argument
condition exactly when `size` is even (this includes zero and negative
even sizes); `sigma` is not validated, and every odd size — regardless
of sign — passes the check for every sigma. -/
theorem gaussianBlurFilterCtor_error_iff_even (size : ℤ) (sigma : ℚ) :
    (gaussianBlurFilterCtor size sigma = Except.error "Kernel size must be odd" ↔
      size % 2 = 0) ∧
    (gaussianBlurFilterCtor size sigma = Except.ok () ↔ size % 2 ≠ 0) := by
  unfold gaussianBlurFilterCtor
  split_ifs with h <;> simp [h]

/-- Witness for the amended C5 at even size 4 and odd size 7. -/
theorem gaussianBlurFilterCtor_error_iff_even_witness :
    (gaussianBlurFilterCtor 4 1 = Except.error "Kernel size must be odd" ↔
      (4 : ℤ) % 2 = 0) ∧
    (gaussianBlurFilterCtor 4 1 = Except.ok () ↔ (4 : ℤ) % 2 ≠ 0) :=
  gaussianBlurFilterCtor_error_iff_even 4 1

/-- A single-channel (grayscale) `cv::Mat`: dimensions plus pixel data
(float samples modelled as exact rationals). -/
structure GrayImage where
  rows : ℕ
  cols : ℕ
  data : ℕ → ℕ → ℚ

/-- A 3-channel BGR `cv::Mat`. -/
structure ColorImage where
  rows : ℕ
  cols : ℕ
  blue : ℕ → ℕ → ℚ
  green : ℕ → ℕ → ℚ
  red : ℕ → ℕ → ℚ

/-- An input `cv::Mat` as the convolution entry points receive it:
either 1-channel or 3-channel. -/
inductive InputImage
  | gray (g : GrayImage)
  | color (c : ColorImage)

/-- An 8-bit output image (`CV_8U`). -/
structure Image8 where
  rows : ℕ
  cols : ℕ
  data : ℕ → ℕ → ℕ

/-- Row count of an input image (`cv::Mat::rows`). -/
def inputRows : InputImage → ℕ
  | InputImage.gray gi => gi.rows
  | InputImage.color c => c.rows

/-- Column count of an input image (`cv::Mat::cols`). -/
def inputCols : InputImage → ℕ
  | InputImage.gray gi => gi.cols
  | InputImage.color c => c.cols

/-- The grayscale-reduction step of both convolution entry points
(part_002 lines 77–83 and 125–131): a 3-channel image goes through
`cvtColor(·, COLOR_BGR2GRAY)` (luma weights 0.299 R + 0.587 G +
0.114 B), a 1-channel image is cloned unchanged. -/
def toGray : InputImage → GrayImage
  | InputImage.gray gi => gi
  | InputImage.color c =>
      { rows := c.rows, cols := c.cols,
        data := fun i j =>
          (299 / 1000) * c.red i j + (587 / 1000) * c.green i j +
            (114 / 1000) * c.blue i j }

/-- Round half to even, as OpenCV's `cvRound` does. -/
def roundHalfEven (q : ℚ) : ℤ :=
  let f := ⌊q⌋
  let r := q - (f : ℚ)
  if r < 1 / 2 then f
  else if 1 / 2 < r then f + 1
  else if f % 2 = 0 then f else f + 1

/-- `saturate_cast<uchar>` applied by `convertTo(·, CV_8U)`: round to
nearest (ties to even) and clamp to `[0, 255]`. -/
def saturate8 (q : ℚ) : ℕ := (min 255 (max 0 (roundHalfEven q))).toNat

/-- The float output buffer of `GaussianBlurFilter::applyConvolution`
(part_002 lines 89–108) after its double loop, with the buffer's
pre-fill made explicit as `init` (the source allocates it with
`cv::Mat::zeros`, i.e. `init = 0`).  A pixel is computed only when its
whole neighborhood fits: `padding ≤ i < rows - padding` and
`padding ≤ j < cols - padding` (stated without truncated subtraction as
`i + padding < rows` etc.); all other pixels keep the pre-fill value. -/
def conv2Dout (A : ℚ) (g : ℤ → ℚ) (size : ℕ) (init : ℕ → ℕ → ℚ)
    (gray : GrayImage) (i j : ℕ) : ℚ :=
  let padding := size / 2
  if padding ≤ i ∧ i + padding < gray.rows ∧
      padding ≤ j ∧ j + padding < gray.cols then
    ∑ ki ∈ Finset.range size, ∑ kj ∈ Finset.range size,
      gray.data (i - padding + ki) (j - padding + kj) *
        generateGaussianKernel A g size ki kj
  else init i j

/-- `GaussianBlurFilter::applyConvolution` (part_002 lines 72–114):
validate non-empty, reduce to grayscale, convolve into a buffer
pre-filled with `init`, convert to 8-bit. -/
def applyConvolutionInit (A : ℚ) (g : ℤ → ℚ) (size : ℕ) (init : ℕ → ℕ → ℚ)
    (input : InputImage) : Except String Image8 :=
  if inputRows input = 0 ∨ inputCols input = 0 then
    Except.error "Input image is empty"
  else
    Except.ok { rows := (toGray input).rows, cols := (toGray input).cols,
                data := fun i j => saturate8 (conv2Dout A g size init (toGray input) i j) }

/-- `applyConvolution` as the source runs it: zero-filled output buffer. -/
def applyConvolution (A : ℚ) (g : ℤ → ℚ) (size : ℕ) (input : InputImage) :
    Except String Image8 :=
  applyConvolutionInit A g size (fun _ _ => 0) input

/-- The intermediate buffer of the horizontal (first) pass of
`applySeparableConvolution` (part_002 lines 154–166), pre-fill explicit
as `initTemp` (`cv::Mat::zeros` in the source): every row, but only
columns `padding ≤ j < cols - padding`; other cells keep the pre-fill. -/
def sepTemp (g : ℤ → ℚ) (size : ℕ) (initTemp : ℕ → ℕ → ℚ)
    (gray : GrayImage) (i j : ℕ) : ℚ :=
  let padding := size / 2
  if i < gray.rows ∧ padding ≤ j ∧ j + padding < gray.cols then
    ∑ k ∈ Finset.range size,
      gray.data i (j - padding + k) * kernel1D g size k
  else initTemp i j

/-- The float output buffer of the vertical (second) pass of
`applySeparableConvolution` (part_002 lines 169–179): every column, but
only rows `padding ≤ i < rows - padding`; other pixels keep the output
buffer's pre-fill. -/
def sepOut (g : ℤ → ℚ) (size : ℕ) (initTemp initOut : ℕ → ℕ → ℚ)
    (gray : GrayImage) (i j : ℕ) : ℚ :=
  let padding := size / 2
  if padding ≤ i ∧ i + padding < gray.rows ∧ j < gray.cols then
    ∑ k ∈ Finset.range size,
      sepTemp g size initTemp gray (i - padding + k) j * kernel1D g size k
  else initOut i j

/-- `GaussianBlurFilter::applySeparableConvolution` (part_002 lines
120–185) with both buffer pre-fills explicit. -/
def applySeparableConvolutionInit (g : ℤ → ℚ) (size : ℕ)
    (initTemp initOut : ℕ → ℕ → ℚ) (input : InputImage) : Except String Image8 :=
  if inputRows input = 0 ∨ inputCols input = 0 then
    Except.error "Input image is empty"
  else
    Except.ok { rows := (toGray input).rows, cols := (toGray input).cols,
                data := fun i j =>
                  saturate8 (sepOut g size initTemp initOut (toGray input) i j) }

/-- `applySeparableConvolution` as the source runs it: both buffers
zero-filled. -/
def applySeparableConvolution (g : ℤ → ℚ) (size : ℕ) (input : InputImage) :
    Except String Image8 :=
  applySeparableConvolutionInit g size (fun _ _ => 0) (fun _ _ => 0) input

/-- The pixel at `(i, j)` of a convolution result, `none` on the error
case. -/
def pixelOf (e : Except String Image8) (i j : ℕ) : Option ℕ :=
  match e with
  | Except.ok r => some (r.data i j)
  | Except.error _ => none

/-- Whether a convolution result is the error case. -/
def isErr (e : Except String Image8) : Bool :=
  match e with
  | Except.ok _ => false
  | Except.error _ => true

/-- The dimensions of a convolution result, `none` on the error case. -/
def dimsOf (e : Except String Image8) : Option (ℕ × ℕ) :=
  match e with
  | Except.ok r => some (r.rows, r.cols)
  | Except.error _ => none

/-- Saturating conversion maps a zero float pixel to the zero byte. -/
theorem saturate8_zero : saturate8 0 = 0 := by
  norm_num [saturate8, roundHalfEven]

/-- Claim C7: both convolution entry points fail with the
invalid-argument condition exactly on empty (zero-dimension) input;
on every non-empty image neither raises it. -/
theorem conv_error_iff_empty (A : ℚ) (g : ℤ → ℚ) (size : ℕ) (input : InputImage) :
    (isErr (applyConvolution A g size input) = true ↔
      inputRows input = 0 ∨ inputCols input = 0) ∧
    (isErr (applySeparableConvolution g size input) = true ↔
      inputRows input = 0 ∨ inputCols input = 0) := by
  unfold applyConvolution applyConvolutionInit applySeparableConvolution
    applySeparableConvolutionInit
  constructor <;> split_ifs with h <;> simp [isErr, h]

/-- Witness for C7 at an empty and a non-empty concrete image. -/
theorem conv_error_iff_empty_witness :
    ((isErr (applyConvolution 1 (fun _ => 1) 3
        (InputImage.gray { rows := 0, cols := 4, data := fun _ _ => 0 })) = true ↔
      inputRows (InputImage.gray { rows := 0, cols := 4, data := fun _ _ => 0 }) = 0 ∨
      inputCols (InputImage.gray { rows := 0, cols := 4, data := fun _ _ => 0 }) = 0) ∧
     (isErr (applySeparableConvolution (fun _ => 1) 3
        (InputImage.gray { rows := 0, cols := 4, data := fun _ _ => 0 })) = true ↔
      inputRows (InputImage.gray { rows := 0, cols := 4, data := fun _ _ => 0 }) = 0 ∨
      inputCols (InputImage.gray { rows := 0, cols := 4, data := fun _ _ => 0 }) = 0)) ∧
    ((isErr (applyConvolution 1 (fun _ => 1) 3
        (InputImage.gray { rows := 4, cols := 4, data := fun _ _ => 0 })) = true ↔
      inputRows (InputImage.gray { rows := 4, cols := 4, data := fun _ _ => 0 }) = 0 ∨
      inputCols (InputImage.gray { rows := 4, cols := 4, data := fun _ _ => 0 }) = 0) ∧
     (isErr (applySeparableConvolution (fun _ => 1) 3
        (InputImage.gray { rows := 4, cols := 4, data := fun _ _ => 0 })) = true ↔
      inputRows (InputImage.gray { rows := 4, cols := 4, data := fun _ _ => 0 }) = 0 ∨
      inputCols (InputImage.gray { rows := 4, cols := 4, data := fun _ _ => 0 }) = 0)) :=
  ⟨conv_error_iff_empty 1 (fun _ => 1) 3
      (InputImage.gray { rows := 0, cols := 4, data := fun _ _ => 0 }),
   conv_error_iff_empty 1 (fun _ => 1) 3
      (InputImage.gray { rows := 4, cols := 4, data := fun _ _ => 0 })⟩

/-- Claim C8: on a 3-channel input both convolution entry points first
reduce to grayscale and convolve the single-channel data, so the result
on a color image equals the result of the same function applied to the
grayscale reduction of that image. -/
theorem conv_color_reduces_to_gray (A : ℚ) (g : ℤ → ℚ) (size : ℕ) (c : ColorImage) :
    applyConvolution A g size (InputImage.color c) =
      applyConvolution A g size (InputImage.gray (toGray (InputImage.color c))) ∧
    applySeparableConvolution g size (InputImage.color c) =
      applySeparableConvolution g size (InputImage.gray (toGray (InputImage.color c))) :=
  ⟨rfl, rfl⟩

/-- Claim C10: on a non-empty grayscale image whose row count or column
count is at most twice the kernel padding, `applyConvolution` raises no
error and returns an image of the same dimensions with every pixel
zero: the interior loop bounds leave no pixel to compute. -/
theorem applyConvolution_small_image_all_zero (A : ℚ) (g : ℤ → ℚ) (size : ℕ)
    (img : GrayImage) (hr : img.rows ≠ 0) (hc : img.cols ≠ 0)
    (hsmall : img.rows ≤ 2 * (size / 2) ∨ img.cols ≤ 2 * (size / 2)) :
    dimsOf (applyConvolution A g size (InputImage.gray img)) =
      some (img.rows, img.cols) ∧
    ∀ i j, pixelOf (applyConvolution A g size (InputImage.gray img)) i j = some 0 := by
  unfold applyConvolution applyConvolutionInit
  rw [if_neg (by simp [inputRows, inputCols, hr, hc])]
  refine ⟨rfl, fun i j => ?_⟩
  simp only [pixelOf, Option.some_inj]
  have hout : conv2Dout A g size (fun _ _ => 0) (toGray (InputImage.gray img)) i j = 0 := by
    unfold conv2Dout
    rw [if_neg]
    simp only [toGray]
    rcases hsmall with h | h
    · rintro ⟨h1, h2, -, -⟩; omega
    · rintro ⟨-, -, h3, h4⟩; omega
  rw [hout, saturate8_zero]

/-- Witness for C10: a 2-row image under a 5-tap kernel. -/
theorem applyConvolution_small_image_all_zero_witness :
    (2 ≠ 0) ∧ (9 ≠ 0) ∧ (2 ≤ 2 * (5 / 2) ∨ 9 ≤ 2 * (5 / 2)) ∧
    (dimsOf (applyConvolution 1 (fun _ => 1) 5
        (InputImage.gray { rows := 2, cols := 9, data := fun i j => (i + j : ℚ) })) =
      some (2, 9) ∧
     ∀ i j, pixelOf (applyConvolution 1 (fun _ => 1) 5
        (InputImage.gray { rows := 2, cols := 9, data := fun i j => (i + j : ℚ) })) i j =
      some 0) :=
  ⟨by norm_num, by norm_num, Or.inl (by norm_num),
   applyConvolution_small_image_all_zero 1 (fun _ => 1) 5
     { rows := 2, cols := 9, data := fun i j => (i + j : ℚ) }
     (by norm_num) (by norm_num) (Or.inl (by norm_num))⟩

/-- Counterexample for C4: pre-fill the separable path's output buffer
with the non-zero sentinel 7 (intermediate buffer zero-filled as in the
source).  On a 3x3 image with a 3-tap kernel, the pixel at row 1,
column 0 lies within `size/2` of the left edge, yet the vertical pass
writes it (it computes a weighted sum over the intermediate buffer's
zero border column), producing 0 instead of the sentinel: the border
pixel is not left unwritten by `applySeparableConvolution`. -/
theorem separableConvolution_border_written_cex :
    pixelOf (applySeparableConvolutionInit (fun _ => 1) 3 (fun _ _ => 0) (fun _ _ => 7)
      (InputImage.gray { rows := 3, cols := 3, data := fun _ _ => 0 })) 1 0 = some 0 ∧
    pixelOf (applySeparableConvolutionInit (fun _ => 1) 3 (fun _ _ => 0) (fun _ _ => 7)
      (InputImage.gray { rows := 3, cols := 3, data := fun _ _ => 0 })) 1 0 ≠ some 7 := by
  have h : pixelOf (applySeparableConvolutionInit (fun _ => 1) 3 (fun _ _ => 0)
      (fun _ _ => 7) (InputImage.gray { rows := 3, cols := 3, data := fun _ _ => 0 }))
      1 0 = some 0 := by
    unfold applySeparableConvolutionInit
    rw [if_neg (by simp [inputRows, inputCols])]
    simp only [pixelOf, Option.some_inj]
    have hout : sepOut (fun _ => 1) 3 (fun _ _ => 0) (fun _ _ => 7)
        (toGray (InputImage.gray { rows := 3, cols := 3, data := fun _ _ => 0 })) 1 0 = 0 := by
      unfold sepOut
      simp only [toGray]
      rw [if_pos (by norm_num)]
      refine Finset.sum_eq_zero fun k hk => ?_
      have htz : sepTemp (fun _ => 1) 3 (fun _ _ => 0)
          { rows := 3, cols := 3, data := fun _ _ => 0 } (1 - 3 / 2 + k) 0 = 0 := by
        unfold sepTemp
        rw [if_neg (by norm_num)]
      rw [htz, zero_mul]
    rw [hout, saturate8_zero]
  exact ⟨h, by rw [h]; simp⟩

/-- Claim C4 (amended): `applyConvolution` leaves every non-interior
pixel unwritten — it keeps the output buffer's pre-fill value, whatever
that is (zero in the source, which allocates with `cv::Mat::zeros`).
`applySeparableConvolution` does not leave all border pixels unwritten
(its vertical pass writes border-column pixels on interior rows), but
with the zero-filled buffers the source allocates, every non-interior
pixel of its output is zero as well, because the written border pixels
are weighted sums over the intermediate buffer's zero border columns. -/
theorem border_pixels_behavior (A : ℚ) (g : ℤ → ℚ) (size : ℕ) (init : ℕ → ℕ → ℚ)
    (img : GrayImage) (i j : ℕ)
    (hr : img.rows ≠ 0) (hc : img.cols ≠ 0)
    (hborder : ¬(size / 2 ≤ i ∧ i + size / 2 < img.rows ∧
                 size / 2 ≤ j ∧ j + size / 2 < img.cols)) :
    pixelOf (applyConvolutionInit A g size init (InputImage.gray img)) i j =
      some (saturate8 (init i j)) ∧
    pixelOf (applySeparableConvolution g size (InputImage.gray img)) i j = some 0 := by
  constructor
  · unfold applyConvolutionInit
    rw [if_neg (by simp [inputRows, inputCols, hr, hc])]
    simp only [pixelOf, Option.some_inj]
    unfold conv2Dout
    simp only [toGray]
    rw [if_neg hborder]
  · unfold applySeparableConvolution applySeparableConvolutionInit
    rw [if_neg (by simp [inputRows, inputCols, hr, hc])]
    simp only [pixelOf, Option.some_inj]
    have hout : sepOut g size (fun _ _ => 0) (fun _ _ => 0)
        (toGray (InputImage.gray img)) i j = 0 := by
      unfold sepOut
      simp only [toGray]
      by_cases hG : size / 2 ≤ i ∧ i + size / 2 < img.rows ∧ j < img.cols
      · rw [if_pos hG]
        refine Finset.sum_eq_zero fun k _ => ?_
        have htz : sepTemp g size (fun _ _ => 0) img (i - size / 2 + k) j = 0 := by
          unfold sepTemp
          rw [if_neg]
          rintro ⟨-, h2, h3⟩
          exact hborder ⟨hG.1, hG.2.1, h2, h3⟩
        rw [htz, zero_mul]
      · rw [if_neg hG]
    rw [hout, saturate8_zero]

/-- Witness for the amended C4 at a concrete border pixel. -/
theorem border_pixels_behavior_witness :
    (3 ≠ 0) ∧ (3 ≠ 0) ∧
    (pixelOf (applyConvolutionInit 1 (fun _ => 1) 3 (fun _ _ => 9)
        (InputImage.gray { rows := 3, cols := 3, data := fun _ _ => 0 })) 0 1 =
      some (saturate8 9) ∧
     pixelOf (applySeparableConvolution (fun _ => 1) 3
        (InputImage.gray { rows := 3, cols := 3, data := fun _ _ => 0 })) 0 1 = some 0) :=
  ⟨by norm_num, by norm_num,
   border_pixels_behavior 1 (fun _ => 1) 3 (fun _ _ => 9)
     { rows := 3, cols := 3, data := fun _ _ => 0 } 0 1
     (by norm_num) (by norm_num) (by norm_num)⟩

/-- The exponential law lets the 2-D kernel total factor as the
constant times the square of the 1-D kernel total. -/
theorem kernelTotal_factor (A : ℚ) (g : ℤ → ℚ) (size : ℕ)
    (hmul : ∀ a b, g (a + b) = g a * g b) :
    kernelTotal A g size = A * (kernel1Dtotal g size * kernel1Dtotal g size) := by
  unfold kernelTotal gaussCell kernel1Dtotal
  rw [Finset.sum_mul_sum, Finset.mul_sum]
  refine Finset.sum_congr rfl fun i _ => ?_
  rw [Finset.mul_sum]
  refine Finset.sum_congr rfl fun j _ => ?_
  rw [hmul]

/-- Each normalized 2-D kernel cell is the product of the two
corresponding normalized 1-D kernel cells: the separability property
of the Gaussian. -/
theorem generateGaussianKernel_factor (A : ℚ) (g : ℤ → ℚ) (size : ℕ)
    (hA : 0 < A) (hg : ∀ t, 0 < g t) (hodd : size % 2 = 1)
    (hmul : ∀ a b, g (a + b) = g a * g b) (ki kj : ℕ) :
    generateGaussianKernel A g size ki kj =
      kernel1D g size ki * kernel1D g size kj := by
  have hS := kernel1Dtotal_pos g size hg hodd
  unfold generateGaussianKernel gaussCell kernel1D
  rw [kernelTotal_factor A g size hmul, hmul]
  field_simp
  ring

/-- Claim C2: for every grayscale image and the kernels generated from
the same odd size (with the abstracted Gaussian weights positive and
multiplicative, which any sigma > 0 provides), the naive 2-D
convolution and the separable convolution produce identical 8-bit
values at every interior pixel more than `size/2` away from each edge
(exact equality, hence certainly within the claimed ±1 tolerance). -/
theorem conv2D_eq_separable_interior (A : ℚ) (g : ℤ → ℚ) (size : ℕ) (img : GrayImage)
    (hA : 0 < A) (hg : ∀ t, 0 < g t) (hmul : ∀ a b, g (a + b) = g a * g b)
    (hodd : size % 2 = 1) (i j : ℕ)
    (hi1 : size / 2 ≤ i) (hi2 : i + size / 2 < img.rows)
    (hj1 : size / 2 ≤ j) (hj2 : j + size / 2 < img.cols) :
    pixelOf (applyConvolution A g size (InputImage.gray img)) i j =
      pixelOf (applySeparableConvolution g size (InputImage.gray img)) i j := by
  have hr : img.rows ≠ 0 := by omega
  have hc : img.cols ≠ 0 := by omega
  unfold applyConvolution applyConvolutionInit applySeparableConvolution
    applySeparableConvolutionInit
  rw [if_neg (by simp [inputRows, inputCols, hr, hc]),
    if_neg (by simp [inputRows, inputCols, hr, hc])]
  simp only [pixelOf, Option.some_inj]
  congr 1
  unfold conv2Dout sepOut
  simp only [toGray]
  rw [if_pos ⟨hi1, hi2, hj1, hj2⟩, if_pos ⟨hi1, hi2, by omega⟩]
  have hsep : ∀ k ∈ Finset.range size,
      sepTemp g size (fun _ _ => 0) img (i - size / 2 + k) j * kernel1D g size k =
      (∑ k2 ∈ Finset.range size,
          img.data (i - size / 2 + k) (j - size / 2 + k2) * kernel1D g size k2) *
        kernel1D g size k := by
    intro k hk
    simp only [Finset.mem_range] at hk
    have hrow : i - size / 2 + k < img.rows := by omega
    unfold sepTemp
    rw [if_pos ⟨hrow, hj1, hj2⟩]
  rw [Finset.sum_congr rfl hsep]
  simp only [generateGaussianKernel_factor A g size hA hg hodd hmul, Finset.sum_mul]
  refine Finset.sum_congr rfl fun k _ => ?_
  refine Finset.sum_congr rfl fun k2 _ => ?_
  ring

/-- Witness for C2 at a concrete 5x5 image, 3-tap kernel, interior
pixel (2, 2). -/
theorem conv2D_eq_separable_interior_witness :
    (0 : ℚ) < 1 ∧ 3 % 2 = 1 ∧ 3 / 2 ≤ 2 ∧ 2 + 3 / 2 < 5 ∧
    pixelOf (applyConvolution 1 (fun _ => 1) 3
        (InputImage.gray { rows := 5, cols := 5, data := fun i j => (10 * i + j : ℚ) })) 2 2 =
      pixelOf (applySeparableConvolution (fun _ => 1) 3
        (InputImage.gray { rows := 5, cols := 5, data := fun i j => (10 * i + j : ℚ) })) 2 2 :=
  ⟨one_pos, rfl, by norm_num, by norm_num,
   conv2D_eq_separable_interior 1 (fun _ => 1) 3
     { rows := 5, cols := 5, data := fun i j => (10 * i + j : ℚ) }
     one_pos (fun _ => one_pos) (fun _ _ => (one_mul 1).symm) rfl 2 2
     (by norm_num) (by norm_num) (by norm_num) (by norm_num)⟩
